import Mathlib

/-!
Verification development for the Percy core specification.

The repository ships the test suites of the snapshot-processing core
(asset discovery and control server) but not the production modules
themselves, so the data model and the operations below are modelled
from the specification document, with the test suites fixing the
observable behaviour (log lines, capture decisions, payload handling).
-/

namespace PercySpec

/-- Modelled from the spec: the 15 MiB resource size cap
(content size of a captured resource never exceeds this). -/
def maxFileSize : Nat := 15 * 1024 * 1024

/-- Modelled from the spec: bound on the number of HTTP redirects the
discoverer follows when fetching one resource body. -/
def redirectFuel : Nat := 20

/-- Modelled from the spec: SHA-256 of resource content, modelled as an
injective content-addressed digest of the byte list. -/
def shaOf (body : List Nat) : Nat :=
  body.foldl (fun a b => a * 256 + b % 256 + 1) 1

/-- Modelled from the spec: an absolute http(s) URL, reduced to the parts
the discoverer inspects (scheme, hostname, port, path). -/
structure Url where
  scheme : String
  host : String
  port : Nat
  path : String
deriving DecidableEq, Repr

/-- Modelled from the spec: rendering of a URL used in log lines. -/
def urlStr (u : Url) : String :=
  u.scheme ++ "://" ++ u.host ++ ":" ++ toString u.port ++ u.path

/-- Modelled from the spec: log levels of the shared logger. -/
inductive LogLevel where
  | debug
  | info
  | warn
  | error
deriving DecidableEq, Repr

/-- Modelled from the spec: one intercepted browser request - its URL and
whether it is a prefetch / preload hint. -/
structure Request where
  url : Url
  isPrefetch : Bool
deriving DecidableEq, Repr

/-- Modelled from the spec: a network response as seen by the discoverer -
mimetype, body bytes, and an optional redirect target. -/
structure NetResponse where
  mimetype : String
  body : List Nat
  redirectTo : Option Url
deriving DecidableEq, Repr

/-- Modelled from the spec: fetch a body over the network, following
redirects up to the given fuel. -/
def fetchFollow (net : Url → Option NetResponse) : Nat → Url → Option (String × List Nat)
  | 0, _ => none
  | Nat.succ fuel, u =>
    match net u with
    | none => none
    | some r =>
      match r.redirectTo with
      | none => some (r.mimetype, r.body)
      | some v => fetchFollow net fuel v

/-- Modelled from the spec: a fetch succeeds and its body is within the
size cap. -/
def goodFetch (net : Url → Option NetResponse) (u : Url) : Bool :=
  match fetchFollow net redirectFuel u with
  | some (_, body) => body.length ≤ maxFileSize
  | none => false

/-- Modelled from the spec: split a hostname into dot-separated labels
(worker on the character list). -/
def splitLabelsAux : List Char → List Char → List String
  | [], acc => [String.mk acc.reverse]
  | c :: rest, acc =>
    if c = '.' then String.mk acc.reverse :: splitLabelsAux rest []
    else splitLabelsAux rest (c :: acc)

/-- Modelled from the spec: the dot-separated labels of a hostname. -/
def splitLabels (s : String) : List String := splitLabelsAux s.data []

/-- Modelled from the spec: label-wise glob match where a star label
matches exactly one hostname label. -/
def matchLabels : List String → List String → Bool
  | [], [] => true
  | p :: ps, h :: hs =>
    if p = "*" then matchLabels ps hs
    else if p = h then matchLabels ps hs
    else false
  | _, _ => false

/-- Modelled from the spec: hostname glob matching - a bare star matches
every hostname, a leading star-dot matches any subdomain of the rest,
and otherwise labels match one-for-one with star matching one label. -/
def hostnameMatches (pattern host : String) : Bool :=
  match pattern.data with
  | ['*'] => true
  | '*' :: '.' :: rest =>
    let ps := splitLabelsAux rest []
    let hs := splitLabels host
    decide (ps.length < hs.length) && matchLabels ps (hs.drop (hs.length - ps.length))
  | _ => matchLabels (splitLabels pattern) (splitLabels host)

/-- Modelled from the spec: whether any pattern of the list matches the
hostname. -/
def matchesAnyHost (pats : List String) (host : String) : Bool :=
  pats.any (fun p => hostnameMatches p host)

/-- Modelled from the spec: schemes that never reach the network layer of
the discoverer. -/
def nonNetworkScheme (s : String) : Bool :=
  decide (s = "data") || decide (s = "blob") || decide (s = "file")

/-- Modelled from the spec: discovery configuration - allowed and
disallowed hostname patterns and the asset-cache switch. -/
structure DiscoveryConfig where
  allowedHostnames : List String
  disallowedHostnames : List String
  disableAssetCache : Bool
deriving DecidableEq, Repr

/-- Modelled from the spec: the default discovery configuration - no
allowed or disallowed hostname patterns, response cache enabled. -/
def defaultDiscoveryConfig : DiscoveryConfig :=
  { allowedHostnames := [], disallowedHostnames := [], disableAssetCache := false }

/-- Modelled from the spec: routing decision for one intercepted request. -/
inductive RouteAction where
  | abort
  | continueNoCapture
  | serveRoot
  | capture
deriving DecidableEq, Repr

/-- Modelled from the spec: the routing decision table applied to a
request during a snapshot whose root URL is the second argument. -/
def routeRequest (cfg : DiscoveryConfig) (root : Url) (req : Request) : RouteAction :=
  if nonNetworkScheme req.url.scheme then .continueNoCapture
  else if matchesAnyHost cfg.disallowedHostnames req.url.host then .abort
  else if req.isPrefetch then .continueNoCapture
  else if req.url = root then .serveRoot
  else if req.url.host = root.host then .capture
  else if matchesAnyHost cfg.allowedHostnames req.url.host then .capture
  else .continueNoCapture

/-- Modelled from the spec: accepted resource mimetypes - text, image and
font families plus javascript, json and octet-stream. -/
def leadsWith : List Char → List Char → Bool
  | [], _ => true
  | _ :: _, [] => false
  | p :: ps, c :: cs => if p = c then leadsWith ps cs else false

/-- Modelled from the spec: the accepted mimetype set for captured
resources. -/
def acceptMimetype (mt : String) : Bool :=
  leadsWith "text/".data mt.data ||
  leadsWith "image/".data mt.data ||
  leadsWith "font/".data mt.data ||
  decide (mt = "application/javascript") ||
  decide (mt = "application/json") ||
  decide (mt = "application/octet-stream")

/-- Modelled from the spec: a captured artifact - URL, content digest,
mimetype, content bytes and the root flag. -/
structure Resource where
  url : Url
  sha : Nat
  mimetype : String
  content : List Nat
  isRoot : Bool
deriving DecidableEq, Repr

/-- Modelled from the spec: one response-cache entry (sha, mimetype and
content of a previously fetched body). -/
structure CacheEntry where
  sha : Nat
  mimetype : String
  content : List Nat
deriving DecidableEq, Repr

/-- Modelled from the spec: lookup in the URL-keyed response cache. -/
def cacheLookup : List (Url × CacheEntry) → Url → Option CacheEntry
  | [], _ => none
  | (k, e) :: rest, u => if k = u then some e else cacheLookup rest u

/-- Modelled from the spec: whether the dedup list already holds a
resource with the given sha. -/
def hasSha : List Resource → Nat → Bool
  | [], _ => false
  | r :: rest, h => if r.sha = h then true else hasSha rest h

/-- Modelled from the spec: push a captured body into the per-snapshot
dedup list keyed by sha, dropping unaccepted mimetypes. -/
def addResList (rs : List Resource) (u : Url) (mt : String) (body : List Nat) : List Resource :=
  if acceptMimetype mt && !hasSha rs (shaOf body) then
    rs ++ [{ url := u, sha := shaOf body, mimetype := mt, content := body, isRoot := false }]
  else rs

/-- Modelled from the spec: fault-injection hooks standing for the
discoverer members the test suite sabotages (a field read during request
handling and the response parser run on request-finished). -/
structure FaultHooks where
  onRequest : Url → Except String Unit
  onFinished : Url → Except String Unit

/-- Modelled from the spec: hooks of a healthy discoverer - never throw. -/
def noFaults : FaultHooks :=
  { onRequest := fun _ => .ok (), onFinished := fun _ => .ok () }

/-- Modelled from the spec: one snapshot request - root URL, optional
serialized DOM, widths, and the sub-resource requests the page issues at
each width. -/
structure SnapshotInput where
  url : Url
  domSnapshot : Option (List Nat)
  widths : List Nat
  pageRequests : Nat → List Request

/-- Modelled from the spec: mutable state of one discovery run - the
insertion-ordered dedup list, the response cache, the outbound body
fetches performed, and the log. -/
structure DiscoveryState where
  resources : List Resource
  cache : List (Url × CacheEntry)
  fetches : List Url
  logs : List (LogLevel × String)

/-- Modelled from the spec: add a captured body to the state resources. -/
def stateAddResource (s : DiscoveryState) (u : Url) (mt : String) (body : List Nat) : DiscoveryState :=
  { s with resources := addResList s.resources u mt body }

/-- Modelled from the spec: handle one intercepted request - route it,
serve the root from the DOM snapshot, answer from the response cache or
fetch the body (recording the outbound fetch), apply the size cap and the
mimetype filter, and dedup by sha.  Errors thrown by the discoverer
members surface as the Except error. -/
def processRequestE (cfg : DiscoveryConfig) (net : Url → Option NetResponse)
    (hooks : FaultHooks) (root : Url) (dom : Option (List Nat))
    (s : DiscoveryState) (req : Request) : Except String DiscoveryState :=
  match routeRequest cfg root req with
  | .abort => .ok s
  | .continueNoCapture => .ok s
  | .serveRoot =>
    match dom with
    | some _ =>
      .ok { s with logs := s.logs ++ [(.debug, "Serving root resource for " ++ urlStr root)] }
    | none =>
      match fetchFollow net redirectFuel req.url with
      | some _ => .ok { s with fetches := s.fetches ++ [req.url] }
      | none => .ok { s with logs := s.logs ++ [(.warn, "Navigation failed for " ++ urlStr root)] }
  | .capture =>
    match hooks.onRequest req.url with
    | .error msg => .error msg
    | .ok _ =>
      match (if cfg.disableAssetCache then none else cacheLookup s.cache req.url) with
      | some e =>
        .ok (stateAddResource
          { s with logs := s.logs ++ [(.debug, "Response cache hit for " ++ urlStr req.url)] }
          req.url e.mimetype e.content)
      | none =>
        match hooks.onFinished req.url with
        | .error msg => .error msg
        | .ok _ =>
          match fetchFollow net redirectFuel req.url with
          | none =>
            .ok { s with logs := s.logs ++ [(.debug, "Request failed for " ++ urlStr req.url)] }
          | some (mt, body) =>
            if body.length > maxFileSize then
              .ok { s with fetches := s.fetches ++ [req.url],
                           logs := s.logs ++ [(.debug, "Skipping - Max file size exceeded")] }
            else if cfg.disableAssetCache then
              .ok (stateAddResource { s with fetches := s.fetches ++ [req.url] } req.url mt body)
            else
              .ok (stateAddResource
                { s with fetches := s.fetches ++ [req.url],
                         cache := s.cache ++ [(req.url, { sha := shaOf body, mimetype := mt, content := body })] }
                req.url mt body)

/-- Modelled from the spec: per-request error barrier - an error thrown
while handling one request is caught for that request alone and logged to
stderr, leaving the rest of the discovery run intact. -/
def handleRequest (cfg : DiscoveryConfig) (net : Url → Option NetResponse)
    (hooks : FaultHooks) (root : Url) (dom : Option (List Nat))
    (s : DiscoveryState) (req : Request) : DiscoveryState :=
  match processRequestE cfg net hooks root dom s req with
  | .ok s2 => s2
  | .error msg =>
    { s with logs := s.logs ++
        [(.error, "Encountered an error for " ++ urlStr req.url),
         (.error, "Error: " ++ msg)] }

/-- Modelled from the spec: process one width - navigate the root request
then every sub-resource request the page issues at that width. -/
def runWidth (cfg : DiscoveryConfig) (net : Url → Option NetResponse)
    (hooks : FaultHooks) (snap : SnapshotInput)
    (s : DiscoveryState) (w : Nat) : DiscoveryState :=
  (snap.pageRequests w).foldl
    (handleRequest cfg net hooks snap.url snap.domSnapshot)
    (handleRequest cfg net hooks snap.url snap.domSnapshot s { url := snap.url, isPrefetch := false })

/-- Modelled from the spec: the full discovery run - all widths in order,
starting from an empty per-snapshot dedup list over the given response
cache. -/
def runDiscovery (cfg : DiscoveryConfig) (net : Url → Option NetResponse)
    (hooks : FaultHooks) (snap : SnapshotInput)
    (cache0 : List (Url × CacheEntry)) : DiscoveryState :=
  snap.widths.foldl (runWidth cfg net hooks snap)
    { resources := [], cache := cache0, fetches := [], logs := [] }

/-- Modelled from the spec: the root resource of a snapshot - the
serialized DOM when provided (mimetype text/html), otherwise the fetched
root body. -/
def rootResource (net : Url → Option NetResponse) (snap : SnapshotInput) : Option Resource :=
  match snap.domSnapshot with
  | some dom => some { url := snap.url, sha := shaOf dom, mimetype := "text/html", content := dom, isRoot := true }
  | none =>
    (fetchFollow net redirectFuel snap.url).map
      (fun p => { url := snap.url, sha := shaOf p.2, mimetype := p.1, content := p.2, isRoot := true })

/-- Modelled from the spec: the list the discoverer emits after all
widths - the root resource first, then the deduplicated sub-resources in
insertion order. -/
def snapshotResources (cfg : DiscoveryConfig) (net : Url → Option NetResponse)
    (hooks : FaultHooks) (snap : SnapshotInput)
    (cache0 : List (Url × CacheEntry)) : Option (List Resource) :=
  (rootResource net snap).map
    (fun root => root :: (runDiscovery cfg net hooks snap cache0).resources)

/-- Modelled from the spec: the cache-free reference effect of one
request on the dedup list - capture-routed requests fetch, apply the size
cap and push into the dedup list; all other requests leave it unchanged. -/
def captureStep (cfg : DiscoveryConfig) (net : Url → Option NetResponse)
    (root : Url) (rs : List Resource) (req : Request) : List Resource :=
  match routeRequest cfg root req with
  | .capture =>
    match fetchFollow net redirectFuel req.url with
    | none => rs
    | some (mt, body) =>
      if body.length > maxFileSize then rs else addResList rs req.url mt body
  | _ => rs

/-- Modelled from the spec: the reference dedup list of a whole run - all
widths folded over the cache-free capture step. -/
def captureRun (cfg : DiscoveryConfig) (net : Url → Option NetResponse)
    (snap : SnapshotInput) : List Resource :=
  snap.widths.foldl (fun rs w => (snap.pageRequests w).foldl (captureStep cfg net snap.url) rs) []

/-- Every cache entry agrees with the network and respects the size cap. -/
def cacheAgrees (net : Url → Option NetResponse) (c : List (Url × CacheEntry)) : Prop :=
  ∀ p ∈ c, fetchFollow net redirectFuel p.1 = some (p.2.mimetype, p.2.content) ∧
    p.2.content.length ≤ maxFileSize

/-- Run invariant of a discovery pass that starts from an empty response
cache: the cache agrees with the network, each outbound fetch happened at
most once and is cached, cached URLs were fetched, and every captured
resource URL was fetched. -/
def RunInv (net : Url → Option NetResponse) (s : DiscoveryState) : Prop :=
  cacheAgrees net s.cache ∧
  s.fetches.Nodup ∧
  (∀ u ∈ s.fetches, cacheLookup s.cache u ≠ none) ∧
  (∀ p ∈ s.cache, p.1 ∈ s.fetches) ∧
  (∀ r ∈ s.resources, r.url ∈ s.fetches)

/-- Modelled from the spec: a JSON-ish value as found in snapshot payload
bodies (null, booleans, numbers, strings and number arrays). -/
inductive JVal where
  | jnull
  | jbool (b : Bool)
  | jnum (n : Int)
  | jstr (s : String)
  | jnums (ns : List Int)
deriving DecidableEq, Repr

/-- Modelled from the spec: first-occurrence lookup of a top-level key in
a JSON object body. -/
def jLookup : List (String × JVal) → String → Option JVal
  | [], _ => none
  | (k, v) :: rest, key => if k = key then some v else jLookup rest key

/-- Modelled from the spec: the top-level keys of the snapshot payload
schema; every other key is ignored. -/
def knownSnapshotKeys : List String :=
  ["name", "url", "widths", "minHeight", "requestHeaders",
   "clientInfo", "environmentInfo", "domSnapshot", "enableJavaScript", "concurrent"]

/-- Modelled from the spec: shape helper - read a string field. -/
def jStr : Option JVal → Option String
  | some (.jstr s) => some s
  | _ => none

/-- Modelled from the spec: shape helper - read an integer field. -/
def jNum : Option JVal → Option Int
  | some (.jnum n) => some n
  | _ => none

/-- Modelled from the spec: shape helper - read a number-array field. -/
def jNums : Option JVal → Option (List Int)
  | some (.jnums ns) => some ns
  | _ => none

/-- Modelled from the spec: shape helper - read a boolean field. -/
def jBool : Option JVal → Option Bool
  | some (.jbool b) => some b
  | _ => none

/-- Modelled from the spec: the snapshot payload after validation - only
the schema fields survive, with the concurrent flag defaulting to true. -/
structure ParsedSnapshot where
  name : Option String
  url : Option String
  widths : Option (List Int)
  minHeight : Option Int
  clientInfo : Option String
  environmentInfo : Option String
  domSnapshot : Option String
  enableJavaScript : Option Bool
  concurrent : Bool
deriving DecidableEq, Repr

/-- Modelled from the spec: validate a snapshot payload body against the
schema, reading only the known top-level keys. -/
def parseSnapshotPayload (body : List (String × JVal)) : ParsedSnapshot :=
  { name := jStr (jLookup body "name"),
    url := jStr (jLookup body "url"),
    widths := jNums (jLookup body "widths"),
    minHeight := jNum (jLookup body "minHeight"),
    clientInfo := jStr (jLookup body "clientInfo"),
    environmentInfo := jStr (jLookup body "environmentInfo"),
    domSnapshot := jStr (jLookup body "domSnapshot"),
    enableJavaScript := jBool (jLookup body "enableJavaScript"),
    concurrent := (jBool (jLookup body "concurrent")).getD true }

/-- Modelled from the spec: the operations of the core the control server
dispatches to; each may throw (Except error). -/
structure CoreOps where
  snapshotOp : ParsedSnapshot → Except String Unit
  idleOp : Unit → Except String Unit
  stopOp : Unit → Except String Unit

/-- Modelled from the spec: an HTTP response of the control server -
status code, success flag and optional error message. -/
structure HttpResponse where
  status : Nat
  success : Bool
  error : Option String
deriving DecidableEq, Repr

/-- Modelled from the spec: route a control-server request to its handler;
thrown errors propagate as the Except error. -/
def handleRouteE (core : CoreOps) (method path : String)
    (body : List (String × JVal)) : Except String HttpResponse :=
  if method = "GET" ∧ path = "/percy/healthcheck" then
    .ok { status := 200, success := true, error := none }
  else if method = "GET" ∧ path = "/percy/idle" then
    match core.idleOp () with
    | .error msg => .error msg
    | .ok _ => .ok { status := 200, success := true, error := none }
  else if method = "POST" ∧ path = "/percy/snapshot" then
    match core.snapshotOp (parseSnapshotPayload body) with
    | .error msg => .error msg
    | .ok _ => .ok { status := 200, success := true, error := none }
  else if method = "POST" ∧ path = "/percy/stop" then
    match core.stopOp () with
    | .error msg => .error msg
    | .ok _ => .ok { status := 200, success := true, error := none }
  else
    .ok { status := 404, success := false, error := some "Not found" }

/-- Modelled from the spec: the control server catches handler errors and
responds 500 with the error message. -/
def serve (core : CoreOps) (method path : String)
    (body : List (String × JVal)) : HttpResponse :=
  match handleRouteE core method path body with
  | .ok r => r
  | .error msg => { status := 500, success := false, error := some msg }

/-- Modelled from the spec: observable events of the snapshot endpoint -
the snapshot job starts, the HTTP response is sent, the snapshot promise
resolves. -/
inductive SEvent where
  | snapshotStarted
  | responseSent
  | snapshotResolved
deriving DecidableEq, Repr

/-- Modelled from the spec: the steps the snapshot endpoint handler runs. -/
inductive HStep where
  | enqueue
  | awaitDone
  | respond
deriving DecidableEq, Repr

/-- Modelled from the spec: the snapshot endpoint handler enqueues the
snapshot, awaits its completion only when the payload asks for
non-concurrent handling, then responds. -/
def snapshotHandlerSteps (concurrent : Bool) : List HStep :=
  if concurrent then [.enqueue, .respond]
  else [.enqueue, .awaitDone, .respond]

/-- Modelled from the spec: run the handler steps, emitting the event
trace; a snapshot left pending when the handler returns resolves after
the response is sent. -/
def runSteps : List HStep → Bool → List SEvent
  | [], pending => if pending then [.snapshotResolved] else []
  | .enqueue :: rest, _ => .snapshotStarted :: runSteps rest true
  | .awaitDone :: rest, pending =>
    if pending then .snapshotResolved :: runSteps rest false
    else runSteps rest false
  | .respond :: rest, pending => .responseSent :: runSteps rest pending

/-- Modelled from the spec: the event trace of one POST snapshot request
with the given body. -/
def snapshotEndpointTrace (body : List (String × JVal)) : List SEvent :=
  runSteps (snapshotHandlerSteps (parseSnapshotPayload body).concurrent) false

/-- Modelled from the spec: index of the first occurrence of an event in
a trace (trace length when absent). -/
def eventIdx : List SEvent → SEvent → Nat
  | [], _ => 0
  | x :: rest, e => if x = e then 0 else eventIdx rest e + 1

/-- Concrete root URL used by the concrete scenarios. -/
def wRoot : Url := { scheme := "http", host := "localhost", port := 8000, path := "/" }

/-- Concrete stylesheet URL. -/
def wCss : Url := { scheme := "http", host := "localhost", port := 8000, path := "/style.css" }

/-- Concrete image URL. -/
def wGif : Url := { scheme := "http", host := "localhost", port := 8000, path := "/img.gif" }

/-- Concrete redirecting stylesheet URL. -/
def wSheet : Url := { scheme := "http", host := "localhost", port := 8000, path := "/stylesheet.css" }

/-- Concrete oversize stylesheet URL. -/
def wLarge : Url := { scheme := "http", host := "localhost", port := 8000, path := "/large.css" }

/-- Concrete external-host URL. -/
def wExt : Url := { scheme := "http", host := "test.localtest.me", port := 8001, path := "/img.gif" }

/-- Concrete serialized DOM bytes. -/
def wDom : List Nat := [60, 104, 116, 109, 108, 62]

/-- Concrete stylesheet body bytes. -/
def wCssBody : List Nat := [112, 32, 99, 115, 115]

/-- Concrete image body bytes. -/
def wGifBody : List Nat := [71, 73, 70, 56, 57]

/-- Concrete network serving the stylesheet, the image, a redirect, an
oversize body and an external image. -/
def wNet : Url → Option NetResponse := fun u =>
  if u = wCss then some { mimetype := "text/css", body := wCssBody, redirectTo := none }
  else if u = wGif then some { mimetype := "image/gif", body := wGifBody, redirectTo := none }
  else if u = wSheet then some { mimetype := "text/html", body := [], redirectTo := some wCss }
  else if u = wLarge then some { mimetype := "text/css", body := List.replicate (maxFileSize + 1) 65, redirectTo := none }
  else if u = wExt then some { mimetype := "image/gif", body := wGifBody, redirectTo := none }
  else none

/-- Concrete snapshot referencing the stylesheet and the image. -/
def wSnap : SnapshotInput :=
  { url := wRoot, domSnapshot := some wDom, widths := [1000],
    pageRequests := fun _ => [{ url := wCss, isPrefetch := false }, { url := wGif, isPrefetch := false }] }

/-- Concrete snapshot referencing the stylesheet and an external image. -/
def wSnapExt : SnapshotInput :=
  { url := wRoot, domSnapshot := some wDom, widths := [1000],
    pageRequests := fun _ => [{ url := wCss, isPrefetch := false }, { url := wExt, isPrefetch := false }] }

/-- Concrete core whose snapshot operation throws. -/
def wCore : CoreOps :=
  { snapshotOp := fun _ => .error "test error",
    idleOp := fun _ => .ok (), stopOp := fun _ => .ok () }

/-- Concrete sabotaged hooks: reading the discoverer field throws. -/
def wFaultHooks : FaultHooks :=
  { onRequest := fun _ => .error "some unhandled request error",
    onFinished := fun _ => .ok () }

/-- Concrete sabotaged hooks: the request-finished parser throws. -/
def wFinFaultHooks : FaultHooks :=
  { onRequest := fun _ => .ok (),
    onFinished := fun _ => .error "some unhandled finished error" }

/-- Concrete empty discovery state. -/
def wEmptyState : DiscoveryState :=
  { resources := [], cache := [], fetches := [], logs := [] }

theorem jLookup_insert_unknown (l1 l2 : List (String × JVal)) (k key : String) (v : JVal)
    (hne : k ≠ key) : jLookup (l1 ++ (k, v) :: l2) key = jLookup (l1 ++ l2) key := by
  induction l1 with
  | nil => simp [jLookup, hne]
  | cons p rest ih =>
    obtain ⟨a, b⟩ := p
    simp only [List.cons_append, jLookup]
    split <;> simp [ih]

/-- C8: unknown top-level keys of a POST /percy/snapshot body are ignored -
inserting one changes neither the validated payload nor the snapshot
endpoint response. -/
theorem snapshot_payload_ignores_unknown_keys (core : CoreOps)
    (b1 b2 : List (String × JVal)) (k : String) (v : JVal)
    (hk : k ∉ knownSnapshotKeys) :
    parseSnapshotPayload (b1 ++ (k, v) :: b2) = parseSnapshotPayload (b1 ++ b2) ∧
    serve core "POST" "/percy/snapshot" (b1 ++ (k, v) :: b2) =
      serve core "POST" "/percy/snapshot" (b1 ++ b2) := by
  simp only [knownSnapshotKeys, List.mem_cons, List.not_mem_nil, or_false] at hk
  push_neg at hk
  obtain ⟨h1, h2, h3, h4, h5, h6, h7, h8, h9, h10⟩ := hk
  have hparse : parseSnapshotPayload (b1 ++ (k, v) :: b2) = parseSnapshotPayload (b1 ++ b2) := by
    unfold parseSnapshotPayload
    rw [jLookup_insert_unknown b1 b2 k "name" v h1,
      jLookup_insert_unknown b1 b2 k "url" v h2,
      jLookup_insert_unknown b1 b2 k "widths" v h3,
      jLookup_insert_unknown b1 b2 k "minHeight" v h4,
      jLookup_insert_unknown b1 b2 k "clientInfo" v h6,
      jLookup_insert_unknown b1 b2 k "environmentInfo" v h7,
      jLookup_insert_unknown b1 b2 k "domSnapshot" v h8,
      jLookup_insert_unknown b1 b2 k "enableJavaScript" v h9,
      jLookup_insert_unknown b1 b2 k "concurrent" v h10]
  refine ⟨hparse, ?_⟩
  unfold serve handleRouteE
  rw [hparse]

/-- Witness for C8 at a concrete body carrying the unknown key test. -/
theorem snapshot_payload_ignores_unknown_keys_witness :
    "test" ∉ knownSnapshotKeys ∧
    parseSnapshotPayload ([] ++ ("test", JVal.jbool true) :: []) = parseSnapshotPayload ([] ++ []) ∧
    serve wCore "POST" "/percy/snapshot" ([] ++ ("test", JVal.jbool true) :: []) =
      serve wCore "POST" "/percy/snapshot" ([] ++ []) :=
  ⟨by decide, snapshot_payload_ignores_unknown_keys wCore [] [] "test" (JVal.jbool true) (by decide)⟩

/-- C7: when a control-server handler throws, the server responds 500
with success false and the thrown message. -/
theorem server_responds_500_on_handler_error (core : CoreOps) (method path : String)
    (body : List (String × JVal)) (msg : String)
    (h : handleRouteE core method path body = .error msg) :
    serve core method path body = { status := 500, success := false, error := some msg } := by
  unfold serve
  rw [h]

/-- Witness for C7: the concrete throwing core yields the 500 response. -/
theorem server_responds_500_on_handler_error_witness :
    handleRouteE wCore "POST" "/percy/snapshot" [("test", JVal.jbool true)] = .error "test error" ∧
    serve wCore "POST" "/percy/snapshot" [("test", JVal.jbool true)] =
      { status := 500, success := false, error := some "test error" } :=
  ⟨rfl, server_responds_500_on_handler_error wCore "POST" "/percy/snapshot"
    [("test", JVal.jbool true)] "test error" rfl⟩

/-- C6: a POST /percy/snapshot body without the concurrent key defaults
it to true; with concurrent true the response is sent before the snapshot
resolves, with concurrent false only after it resolves. -/
theorem snapshot_endpoint_concurrency (body : List (String × JVal)) :
    (jLookup body "concurrent" = none → (parseSnapshotPayload body).concurrent = true) ∧
    ((parseSnapshotPayload body).concurrent = true →
      eventIdx (snapshotEndpointTrace body) SEvent.responseSent <
        eventIdx (snapshotEndpointTrace body) SEvent.snapshotResolved) ∧
    ((parseSnapshotPayload body).concurrent = false →
      eventIdx (snapshotEndpointTrace body) SEvent.snapshotResolved <
        eventIdx (snapshotEndpointTrace body) SEvent.responseSent) := by
  refine ⟨?_, ?_, ?_⟩
  · intro h
    simp [parseSnapshotPayload, h, jBool]
  · intro h
    unfold snapshotEndpointTrace
    rw [h]
    decide
  · intro h
    unfold snapshotEndpointTrace
    rw [h]
    decide

/-- Witness for C6 at the empty body (concurrent omitted) and at a body
with concurrent false. -/
theorem snapshot_endpoint_concurrency_witness :
    ((parseSnapshotPayload ([] : List (String × JVal))).concurrent = true ∧
      eventIdx (snapshotEndpointTrace []) SEvent.responseSent <
        eventIdx (snapshotEndpointTrace []) SEvent.snapshotResolved) ∧
    ((parseSnapshotPayload [("concurrent", JVal.jbool false)]).concurrent = false ∧
      eventIdx (snapshotEndpointTrace [("concurrent", JVal.jbool false)]) SEvent.snapshotResolved <
        eventIdx (snapshotEndpointTrace [("concurrent", JVal.jbool false)]) SEvent.responseSent) :=
  ⟨⟨rfl, (snapshot_endpoint_concurrency []).2.1 rfl⟩,
   ⟨rfl, (snapshot_endpoint_concurrency [("concurrent", JVal.jbool false)]).2.2 rfl⟩⟩

theorem fetchFollow_succ (net : Url → Option NetResponse) (fuel : Nat) (u : Url) :
    fetchFollow net (fuel + 1) u =
      match net u with
      | none => none
      | some r =>
        match r.redirectTo with
        | none => some (r.mimetype, r.body)
        | some v => fetchFollow net fuel v := rfl

theorem goodFetch_spec (net : Url → Option NetResponse) (u : Url)
    (h : goodFetch net u = true) :
    ∃ mt body, fetchFollow net redirectFuel u = some (mt, body) ∧ body.length ≤ maxFileSize := by
  unfold goodFetch at h
  rcases hf : fetchFollow net redirectFuel u with _ | p
  · rw [hf] at h
    simp at h
  · obtain ⟨mt, body⟩ := p
    rw [hf] at h
    exact ⟨mt, body, rfl, of_decide_eq_true h⟩

theorem matchesAnyHost_nil (host : String) : matchesAnyHost [] host = false := rfl

theorem routeRequest_capture_ne_root (cfg : DiscoveryConfig) (root : Url) (req : Request)
    (h : routeRequest cfg root req = .capture) : req.url ≠ root := by
  unfold routeRequest at h
  split_ifs at h <;> simp_all

theorem routeRequest_capture_host (cfg : DiscoveryConfig) (root : Url) (req : Request)
    (h : routeRequest cfg root req = .capture) :
    req.url.host = root.host ∨ matchesAnyHost cfg.allowedHostnames req.url.host = true := by
  unfold routeRequest at h
  split_ifs at h <;> simp_all

theorem routeRequest_capture_empty_allowed (cfg : DiscoveryConfig) (root : Url) (req : Request)
    (hallow : cfg.allowedHostnames = [])
    (h : routeRequest cfg root req = .capture) : req.url.host = root.host := by
  rcases routeRequest_capture_host cfg root req h with h1 | h1
  · exact h1
  · rw [hallow, matchesAnyHost_nil] at h1
    exact absurd h1 (by simp)

theorem routeRequest_root_ne_capture (cfg : DiscoveryConfig) (root : Url) :
    routeRequest cfg root { url := root, isPrefetch := false } ≠ .capture := by
  unfold routeRequest
  split_ifs <;> simp_all

theorem routeRequest_external_iff (cfg : DiscoveryConfig) (root : Url) (req : Request)
    (hscheme : nonNetworkScheme req.url.scheme = false)
    (hdis : matchesAnyHost cfg.disallowedHostnames req.url.host = false)
    (hpre : req.isPrefetch = false)
    (hroot : req.url ≠ root)
    (hhost : req.url.host ≠ root.host) :
    routeRequest cfg root req = .capture ↔
      matchesAnyHost cfg.allowedHostnames req.url.host = true := by
  unfold routeRequest
  rw [hscheme, hdis, hpre]
  simp only [Bool.false_eq_true, if_false, if_neg hroot, if_neg hhost]
  rcases hm : matchesAnyHost cfg.allowedHostnames req.url.host <;> simp

theorem cacheLookup_mem (c : List (Url × CacheEntry)) (u : Url) (e : CacheEntry)
    (h : cacheLookup c u = some e) : (u, e) ∈ c := by
  induction c with
  | nil => simp [cacheLookup] at h
  | cons p rest ih =>
    obtain ⟨k, v⟩ := p
    simp only [cacheLookup] at h
    by_cases hk : k = u
    · rw [if_pos hk] at h
      cases h
      subst hk
      exact List.mem_cons_self _ _
    · rw [if_neg hk] at h
      exact List.mem_cons_of_mem _ (ih h)

theorem cacheLookup_append_left (c d : List (Url × CacheEntry)) (u : Url)
    (h : cacheLookup c u ≠ none) : cacheLookup (c ++ d) u = cacheLookup c u := by
  induction c with
  | nil => simp [cacheLookup] at h
  | cons p rest ih =>
    obtain ⟨k, v⟩ := p
    simp only [cacheLookup, List.cons_append] at *
    by_cases hk : k = u
    · rw [if_pos hk]
      rw [if_pos hk]
    · rw [if_neg hk] at h ⊢
      rw [if_neg hk]
      exact ih h

theorem cacheLookup_append_right (c d : List (Url × CacheEntry)) (u : Url)
    (h : cacheLookup c u = none) : cacheLookup (c ++ d) u = cacheLookup d u := by
  induction c with
  | nil => simp
  | cons p rest ih =>
    obtain ⟨k, v⟩ := p
    simp only [cacheLookup, List.cons_append] at *
    by_cases hk : k = u
    · rw [if_pos hk] at h
      cases h
    · rw [if_neg hk] at h ⊢
      exact ih h

theorem hasSha_false_not_mem (rs : List Resource) (h0 : Nat)
    (h : hasSha rs h0 = false) : h0 ∉ rs.map Resource.sha := by
  induction rs with
  | nil => simp
  | cons r rest ih =>
    simp only [hasSha] at h
    by_cases hr : r.sha = h0
    · rw [if_pos hr] at h
      cases h
    · rw [if_neg hr] at h
      simp only [List.map_cons, List.mem_cons]
      push_neg
      exact ⟨fun he => hr he.symm, ih h⟩

theorem addResList_mem (rs : List Resource) (u : Url) (mt : String) (body : List Nat) :
    ∀ r ∈ addResList rs u mt body,
      r ∈ rs ∨ r = { url := u, sha := shaOf body, mimetype := mt, content := body, isRoot := false } := by
  unfold addResList
  split
  · intro r hr
    rcases List.mem_append.mp hr with h1 | h1
    · exact Or.inl h1
    · simp only [List.mem_singleton] at h1
      exact Or.inr h1
  · intro r hr
    exact Or.inl hr

theorem addResList_nodup_sha (rs : List Resource) (u : Url) (mt : String) (body : List Nat)
    (h : (rs.map Resource.sha).Nodup) :
    ((addResList rs u mt body).map Resource.sha).Nodup := by
  unfold addResList
  split
  · rename_i hcond
    rw [Bool.and_eq_true, Bool.not_eq_true'] at hcond
    have hnot : shaOf body ∉ rs.map Resource.sha := hasSha_false_not_mem rs _ hcond.2
    rw [List.map_append]
    simp only [List.map_cons, List.map_nil]
    rw [List.nodup_append]
    exact ⟨h, List.nodup_singleton _, by simpa [List.disjoint_right] using hnot⟩
  · exact h

theorem processRequestE_shape (cfg : DiscoveryConfig) (net : Url → Option NetResponse)
    (hooks : FaultHooks) (root : Url) (dom : Option (List Nat))
    (s : DiscoveryState) (req : Request) :
    (∃ msg, processRequestE cfg net hooks root dom s req = .error msg) ∨
    ∃ s2, processRequestE cfg net hooks root dom s req = Except.ok s2 ∧
      (s2.resources = s.resources ∨
        (routeRequest cfg root req = .capture ∧ ∃ mt body,
          s2.resources = addResList s.resources req.url mt body ∧
          (body.length ≤ maxFileSize ∨
            ∃ e, cacheLookup s.cache req.url = some e ∧ mt = e.mimetype ∧ body = e.content))) ∧
      (s2.cache = s.cache ∨
        ∃ mt body, body.length ≤ maxFileSize ∧
          s2.cache = s.cache ++ [(req.url, { sha := shaOf body, mimetype := mt, content := body })]) ∧
      (s2.fetches = s.fetches ∨
        ((dom = none ∨ routeRequest cfg root req = .capture) ∧
          s2.fetches = s.fetches ++ [req.url])) := by
  unfold processRequestE
  cases hroute : routeRequest cfg root req with
  | abort =>
    exact Or.inr ⟨s, rfl, Or.inl rfl, Or.inl rfl, Or.inl rfl⟩
  | continueNoCapture =>
    exact Or.inr ⟨s, rfl, Or.inl rfl, Or.inl rfl, Or.inl rfl⟩
  | serveRoot =>
    cases dom with
    | some d =>
      exact Or.inr ⟨_, rfl, Or.inl rfl, Or.inl rfl, Or.inl rfl⟩
    | none =>
      cases hf : fetchFollow net redirectFuel req.url with
      | some p =>
        exact Or.inr ⟨_, rfl, Or.inl rfl, Or.inl rfl, Or.inr ⟨Or.inl rfl, rfl⟩⟩
      | none =>
        exact Or.inr ⟨_, rfl, Or.inl rfl, Or.inl rfl, Or.inl rfl⟩
  | capture =>
    cases hr : hooks.onRequest req.url with
    | error msg => exact Or.inl ⟨msg, rfl⟩
    | ok _ =>
      cases hc : (if cfg.disableAssetCache then none else cacheLookup s.cache req.url) with
      | some e =>
        refine Or.inr ⟨_, rfl, Or.inr ⟨rfl, e.mimetype, e.content, rfl, Or.inr ⟨e, ?_, rfl, rfl⟩⟩,
          Or.inl rfl, Or.inl rfl⟩
        cases hdc : cfg.disableAssetCache with
        | true => rw [hdc] at hc; cases hc
        | false => rw [hdc] at hc; exact hc
      | none =>
        cases hfin : hooks.onFinished req.url with
        | error msg => exact Or.inl ⟨msg, rfl⟩
        | ok _ =>
          cases hf : fetchFollow net redirectFuel req.url with
          | none => exact Or.inr ⟨_, rfl, Or.inl rfl, Or.inl rfl, Or.inl rfl⟩
          | some p =>
            obtain ⟨mt, body⟩ := p
            by_cases hsize : body.length > maxFileSize
            · simp only [if_pos hsize]
              exact Or.inr ⟨_, rfl, Or.inl rfl, Or.inl rfl, Or.inr ⟨Or.inr trivial, rfl⟩⟩
            · simp only [if_neg hsize]
              push_neg at hsize
              cases hdc : cfg.disableAssetCache with
              | true =>
                exact Or.inr ⟨_, rfl,
                  Or.inr ⟨trivial, mt, body, rfl, Or.inl hsize⟩,
                  Or.inl rfl, Or.inr ⟨Or.inr trivial, rfl⟩⟩
              | false =>
                exact Or.inr ⟨_, rfl,
                  Or.inr ⟨trivial, mt, body, rfl, Or.inl hsize⟩,
                  Or.inr ⟨mt, body, hsize, rfl⟩, Or.inr ⟨Or.inr trivial, rfl⟩⟩

theorem handleRequest_resources_shape (cfg : DiscoveryConfig) (net : Url → Option NetResponse)
    (hooks : FaultHooks) (root : Url) (dom : Option (List Nat))
    (s : DiscoveryState) (req : Request) :
    (handleRequest cfg net hooks root dom s req).resources = s.resources ∨
    (routeRequest cfg root req = .capture ∧ ∃ mt body,
      (handleRequest cfg net hooks root dom s req).resources = addResList s.resources req.url mt body ∧
      (body.length ≤ maxFileSize ∨
        ∃ e, cacheLookup s.cache req.url = some e ∧ mt = e.mimetype ∧ body = e.content)) := by
  unfold handleRequest
  rcases processRequestE_shape cfg net hooks root dom s req with ⟨msg, hmsg⟩ | ⟨s2, heq, hres, _, _⟩
  · rw [hmsg]
    exact Or.inl rfl
  · rw [heq]
    exact hres

theorem handleRequest_cache_shape (cfg : DiscoveryConfig) (net : Url → Option NetResponse)
    (hooks : FaultHooks) (root : Url) (dom : Option (List Nat))
    (s : DiscoveryState) (req : Request) :
    (handleRequest cfg net hooks root dom s req).cache = s.cache ∨
    ∃ mt body, body.length ≤ maxFileSize ∧
      (handleRequest cfg net hooks root dom s req).cache =
        s.cache ++ [(req.url, { sha := shaOf body, mimetype := mt, content := body })] := by
  unfold handleRequest
  rcases processRequestE_shape cfg net hooks root dom s req with ⟨msg, hmsg⟩ | ⟨s2, heq, _, hcache, _⟩
  · rw [hmsg]
    exact Or.inl rfl
  · rw [heq]
    exact hcache

theorem handleRequest_fetches_shape (cfg : DiscoveryConfig) (net : Url → Option NetResponse)
    (hooks : FaultHooks) (root : Url) (dom : Option (List Nat))
    (s : DiscoveryState) (req : Request) :
    (handleRequest cfg net hooks root dom s req).fetches = s.fetches ∨
    ((dom = none ∨ routeRequest cfg root req = .capture) ∧
      (handleRequest cfg net hooks root dom s req).fetches = s.fetches ++ [req.url]) := by
  unfold handleRequest
  rcases processRequestE_shape cfg net hooks root dom s req with ⟨msg, hmsg⟩ | ⟨s2, heq, _, _, hfet⟩
  · rw [hmsg]
    exact Or.inl rfl
  · rw [heq]
    exact hfet

theorem foldl_rec {α β : Type} (P : α → Prop) (f : α → β → α) :
    ∀ (l : List β) (s : α), P s → (∀ a b, b ∈ l → P a → P (f a b)) → P (l.foldl f s) := by
  intro l
  induction l with
  | nil => exact fun s h _ => h
  | cons x xs ih =>
    intro s h hstep
    exact ih (f s x) (hstep s x (List.mem_cons_self x xs) h)
      (fun a b hb => hstep a b (List.mem_cons_of_mem x hb))

theorem handleRequest_capture_miss_oversize (cfg : DiscoveryConfig)
    (net : Url → Option NetResponse) (root : Url) (dom : Option (List Nat))
    (s : DiscoveryState) (req : Request) (mt : String) (body : List Nat)
    (hroute : routeRequest cfg root req = .capture)
    (hcache : cacheLookup s.cache req.url = none)
    (hf : fetchFollow net redirectFuel req.url = some (mt, body))
    (hsize : body.length > maxFileSize) :
    handleRequest cfg net noFaults root dom s req =
      { s with fetches := s.fetches ++ [req.url],
               logs := s.logs ++ [(LogLevel.debug, "Skipping - Max file size exceeded")] } := by
  have hif : (if cfg.disableAssetCache then none else cacheLookup s.cache req.url) = none := by
    cases cfg.disableAssetCache <;> simp [hcache]
  unfold handleRequest processRequestE
  rw [hroute]
  simp only [noFaults, hif, hf, if_pos hsize]

theorem handleRequest_capture_miss_ok (cfg : DiscoveryConfig)
    (net : Url → Option NetResponse) (root : Url) (dom : Option (List Nat))
    (s : DiscoveryState) (req : Request) (mt : String) (body : List Nat)
    (hroute : routeRequest cfg root req = .capture)
    (hcache : cacheLookup s.cache req.url = none)
    (hf : fetchFollow net redirectFuel req.url = some (mt, body))
    (hsize : body.length ≤ maxFileSize) :
    (handleRequest cfg net noFaults root dom s req).resources =
      addResList s.resources req.url mt body := by
  have hif : (if cfg.disableAssetCache then none else cacheLookup s.cache req.url) = none := by
    cases cfg.disableAssetCache <;> simp [hcache]
  have hng : ¬ body.length > maxFileSize := not_lt.mpr hsize
  unfold handleRequest processRequestE
  rw [hroute]
  simp only [noFaults, hif, hf, if_neg hng]
  cases cfg.disableAssetCache <;> simp [stateAddResource]

/-- C5: a captured sub-resource answered by a redirect is emitted under
the originally requested URL with the sha of the redirect target body. -/
theorem redirect_resource_url_and_sha (cfg : DiscoveryConfig) (net : Url → Option NetResponse)
    (root : Url) (dom : Option (List Nat)) (s : DiscoveryState) (req : Request)
    (r1 r2 : NetResponse) (v : Url)
    (h1 : net req.url = some r1) (h2 : r1.redirectTo = some v)
    (h3 : net v = some r2) (h4 : r2.redirectTo = none)
    (hroute : routeRequest cfg root req = .capture)
    (hcache : cacheLookup s.cache req.url = none)
    (hsize : r2.body.length ≤ maxFileSize)
    (hmt : acceptMimetype r2.mimetype = true)
    (hsha : hasSha s.resources (shaOf r2.body) = false) :
    (handleRequest cfg net noFaults root dom s req).resources =
      s.resources ++ [{ url := req.url, sha := shaOf r2.body, mimetype := r2.mimetype,
                        content := r2.body, isRoot := false }] := by
  have hf : fetchFollow net redirectFuel req.url = some (r2.mimetype, r2.body) := by
    show fetchFollow net (19 + 1) req.url = _
    rw [fetchFollow_succ]
    simp only [h1, h2]
    show fetchFollow net (18 + 1) v = _
    rw [fetchFollow_succ]
    simp only [h3, h4]
  rw [handleRequest_capture_miss_ok cfg net root dom s req r2.mimetype r2.body hroute hcache hf hsize]
  unfold addResList
  rw [hmt, hsha]
  simp

/-- Witness for C5 at the concrete redirecting stylesheet. -/
theorem redirect_resource_url_and_sha_witness :
    wNet wSheet = some { mimetype := "text/html", body := [], redirectTo := some wCss } ∧
    wNet wCss = some { mimetype := "text/css", body := wCssBody, redirectTo := none } ∧
    routeRequest defaultDiscoveryConfig wRoot { url := wSheet, isPrefetch := false } = .capture ∧
    (handleRequest defaultDiscoveryConfig wNet noFaults wRoot (some wDom) wEmptyState
        { url := wSheet, isPrefetch := false }).resources =
      wEmptyState.resources ++ [{ url := wSheet, sha := shaOf wCssBody, mimetype := "text/css",
                                  content := wCssBody, isRoot := false }] :=
  ⟨by decide, by decide, by decide,
    redirect_resource_url_and_sha defaultDiscoveryConfig wNet wRoot (some wDom) wEmptyState
      { url := wSheet, isPrefetch := false }
      { mimetype := "text/html", body := [], redirectTo := some wCss }
      { mimetype := "text/css", body := wCssBody, redirectTo := none } wCss
      (by decide) rfl (by decide) rfl (by decide) rfl (by decide) (by decide) rfl⟩

theorem handleRequest_size_inv (cfg : DiscoveryConfig) (net : Url → Option NetResponse)
    (hooks : FaultHooks) (root : Url) (dom : Option (List Nat))
    (s : DiscoveryState) (req : Request)
    (hc : ∀ p ∈ s.cache, p.2.content.length ≤ maxFileSize)
    (hr : ∀ r ∈ s.resources, r.content.length ≤ maxFileSize) :
    (∀ p ∈ (handleRequest cfg net hooks root dom s req).cache, p.2.content.length ≤ maxFileSize) ∧
    (∀ r ∈ (handleRequest cfg net hooks root dom s req).resources, r.content.length ≤ maxFileSize) := by
  constructor
  · rcases handleRequest_cache_shape cfg net hooks root dom s req with hsh | ⟨mt, body, hlen, hsh⟩
    · rw [hsh]
      exact hc
    · rw [hsh]
      intro p hp
      rcases List.mem_append.mp hp with hp | hp
      · exact hc p hp
      · simp only [List.mem_singleton] at hp
        subst hp
        exact hlen
  · rcases handleRequest_resources_shape cfg net hooks root dom s req with hsh | ⟨_, mt, body, hsh, h2⟩
    · rw [hsh]
      exact hr
    · rw [hsh]
      intro r hrm
      rcases addResList_mem s.resources req.url mt body r hrm with hin | heq
      · exact hr r hin
      · subst heq
        rcases h2 with hlen | ⟨e, he, hmt, hbody⟩
        · exact hlen
        · have hme := hc (req.url, e) (cacheLookup_mem s.cache req.url e he)
          subst hbody
          exact hme

theorem runDiscovery_size_inv (cfg : DiscoveryConfig) (net : Url → Option NetResponse)
    (hooks : FaultHooks) (snap : SnapshotInput) (cache0 : List (Url × CacheEntry))
    (hcache0 : ∀ p ∈ cache0, p.2.content.length ≤ maxFileSize) :
    (∀ p ∈ (runDiscovery cfg net hooks snap cache0).cache, p.2.content.length ≤ maxFileSize) ∧
    (∀ r ∈ (runDiscovery cfg net hooks snap cache0).resources, r.content.length ≤ maxFileSize) := by
  unfold runDiscovery
  refine foldl_rec
    (fun st => (∀ p ∈ st.cache, p.2.content.length ≤ maxFileSize) ∧
      (∀ r ∈ st.resources, r.content.length ≤ maxFileSize))
    (runWidth cfg net hooks snap) snap.widths
    { resources := [], cache := cache0, fetches := [], logs := [] } ⟨hcache0, by simp⟩ ?_
  intro a w _ hP
  unfold runWidth
  refine foldl_rec
    (fun st => (∀ p ∈ st.cache, p.2.content.length ≤ maxFileSize) ∧
      (∀ r ∈ st.resources, r.content.length ≤ maxFileSize))
    (handleRequest cfg net hooks snap.url snap.domSnapshot) (snap.pageRequests w)
    (handleRequest cfg net hooks snap.url snap.domSnapshot a { url := snap.url, isPrefetch := false })
    ?_ ?_
  · exact handleRequest_size_inv cfg net hooks snap.url snap.domSnapshot a
      { url := snap.url, isPrefetch := false } hP.1 hP.2
  · intro a2 b _ hP2
    exact handleRequest_size_inv cfg net hooks snap.url snap.domSnapshot a2 b hP2.1 hP2.2

/-- C2: no captured resource exceeds 15 MiB, and a response whose body
exceeds the cap is excluded from the resource list and logged at debug
level with the Skipping - Max file size exceeded message. -/
theorem max_file_size_cap (cfg : DiscoveryConfig) (net : Url → Option NetResponse)
    (hooks : FaultHooks) (snap : SnapshotInput) (cache0 : List (Url × CacheEntry))
    (dom : List Nat) (rs : List Resource)
    (hdom : snap.domSnapshot = some dom)
    (hdomsize : dom.length ≤ maxFileSize)
    (hcache0 : ∀ p ∈ cache0, p.2.content.length ≤ maxFileSize)
    (hrs : snapshotResources cfg net hooks snap cache0 = some rs) :
    (∀ r ∈ rs, r.content.length ≤ maxFileSize) ∧
    (∀ (s : DiscoveryState) (req : Request) (mt : String) (body : List Nat),
      routeRequest cfg snap.url req = .capture →
      cacheLookup s.cache req.url = none →
      fetchFollow net redirectFuel req.url = some (mt, body) →
      body.length > maxFileSize →
      handleRequest cfg net noFaults snap.url snap.domSnapshot s req =
        { s with fetches := s.fetches ++ [req.url],
                 logs := s.logs ++ [(LogLevel.debug, "Skipping - Max file size exceeded")] }) := by
  constructor
  · have hsr : snapshotResources cfg net hooks snap cache0 =
        some ({ url := snap.url, sha := shaOf dom, mimetype := "text/html",
                content := dom, isRoot := true } :: (runDiscovery cfg net hooks snap cache0).resources) := by
      unfold snapshotResources rootResource
      rw [hdom]
      rfl
    rw [hsr] at hrs
    injection hrs with hrs
    subst hrs
    intro r hr
    rcases List.mem_cons.mp hr with h | h
    · subst h
      exact hdomsize
    · exact (runDiscovery_size_inv cfg net hooks snap cache0 hcache0).2 r h
  · intro s req mt body hroute hcache hf hsize
    exact handleRequest_capture_miss_oversize cfg net snap.url snap.domSnapshot s req mt body
      hroute hcache hf hsize

/-- Witness for C2 at the concrete snapshot and the oversize response. -/
theorem max_file_size_cap_witness :
    wDom.length ≤ maxFileSize ∧
    (∀ r ∈ ({ url := wRoot, sha := shaOf wDom, mimetype := "text/html",
              content := wDom, isRoot := true } ::
        (runDiscovery defaultDiscoveryConfig wNet noFaults wSnap []).resources),
      r.content.length ≤ maxFileSize) ∧
    handleRequest defaultDiscoveryConfig wNet noFaults wSnap.url wSnap.domSnapshot wEmptyState
        { url := wLarge, isPrefetch := false } =
      { wEmptyState with fetches := wEmptyState.fetches ++ [wLarge],
                         logs := wEmptyState.logs ++ [(LogLevel.debug, "Skipping - Max file size exceeded")] } := by
  have hall := max_file_size_cap defaultDiscoveryConfig wNet noFaults wSnap [] wDom
    ({ url := wRoot, sha := shaOf wDom, mimetype := "text/html", content := wDom, isRoot := true } ::
      (runDiscovery defaultDiscoveryConfig wNet noFaults wSnap []).resources)
    rfl (by decide) (by simp) rfl
  refine ⟨by decide, hall.1, ?_⟩
  refine hall.2 wEmptyState { url := wLarge, isPrefetch := false }
    "text/css" (List.replicate (maxFileSize + 1) 65) (by decide) rfl rfl ?_
  simp [List.length_replicate]

/-- C10: an error thrown inside per-request or request-finished handling
is caught for that request alone, logged to stderr as an encountered
error followed by the message, the resource is omitted, and the snapshot
job still completes. -/
theorem per_request_errors_caught_and_logged (cfg : DiscoveryConfig)
    (net : Url → Option NetResponse) (root : Url) (dom : Option (List Nat))
    (s : DiscoveryState) (req : Request) (msg : String) (hooks : FaultHooks)
    (hroute : routeRequest cfg root req = .capture) :
    (hooks.onRequest req.url = .error msg →
      handleRequest cfg net hooks root dom s req =
        { s with logs := s.logs ++
            [(LogLevel.error, "Encountered an error for " ++ urlStr req.url),
             (LogLevel.error, "Error: " ++ msg)] }) ∧
    (hooks.onRequest req.url = .ok () → hooks.onFinished req.url = .error msg →
      cacheLookup s.cache req.url = none →
      handleRequest cfg net hooks root dom s req =
        { s with logs := s.logs ++
            [(LogLevel.error, "Encountered an error for " ++ urlStr req.url),
             (LogLevel.error, "Error: " ++ msg)] }) ∧
    (∀ (snap : SnapshotInput) (d : List Nat) (cache0 : List (Url × CacheEntry)),
      snap.domSnapshot = some d →
      ∃ rs, snapshotResources cfg net hooks snap cache0 = some rs) := by
  refine ⟨?_, ?_, ?_⟩
  · intro herr
    unfold handleRequest processRequestE
    rw [hroute]
    simp only [herr]
  · intro hok herr hcache
    have hif : (if cfg.disableAssetCache then none else cacheLookup s.cache req.url) = none := by
      cases cfg.disableAssetCache <;> simp [hcache]
    unfold handleRequest processRequestE
    rw [hroute]
    simp only [hok, hif, herr]
  · intro snap d cache0 hd
    refine ⟨{ url := snap.url, sha := shaOf d, mimetype := "text/html",
              content := d, isRoot := true }
        :: (runDiscovery cfg net hooks snap cache0).resources, ?_⟩
    unfold snapshotResources rootResource
    rw [hd]
    rfl

/-- Witness for C10 with the sabotaged field-read hook on the concrete
stylesheet request. -/
theorem per_request_errors_caught_and_logged_witness :
    routeRequest defaultDiscoveryConfig wRoot { url := wCss, isPrefetch := false } = .capture ∧
    handleRequest defaultDiscoveryConfig wNet wFaultHooks wRoot (some wDom) wEmptyState
        { url := wCss, isPrefetch := false } =
      { wEmptyState with logs := wEmptyState.logs ++
          [(LogLevel.error, "Encountered an error for " ++ urlStr wCss),
           (LogLevel.error, "Error: " ++ "some unhandled request error")] } ∧
    ∃ rs, snapshotResources defaultDiscoveryConfig wNet wFaultHooks wSnap [] = some rs :=
  ⟨by decide,
   (per_request_errors_caught_and_logged defaultDiscoveryConfig wNet wRoot (some wDom) wEmptyState
      { url := wCss, isPrefetch := false } "some unhandled request error" wFaultHooks (by decide)).1 rfl,
   (per_request_errors_caught_and_logged defaultDiscoveryConfig wNet wRoot (some wDom) wEmptyState
      { url := wCss, isPrefetch := false } "some unhandled request error" wFaultHooks (by decide)).2.2
     wSnap wDom [] rfl⟩

theorem handleRequest_root_not_fetched (cfg : DiscoveryConfig) (net : Url → Option NetResponse)
    (hooks : FaultHooks) (root : Url) (d : List Nat)
    (s : DiscoveryState) (req : Request) (hP : root ∉ s.fetches) :
    root ∉ (handleRequest cfg net hooks root (some d) s req).fetches := by
  rcases handleRequest_fetches_shape cfg net hooks root (some d) s req with h | ⟨hcap, h⟩
  · rw [h]
    exact hP
  · rcases hcap with hnone | hcap
    · exact absurd hnone (by simp)
    · rw [h]
      intro hmem
      rcases List.mem_append.mp hmem with hmem | hmem
      · exact hP hmem
      · simp only [List.mem_singleton] at hmem
        exact routeRequest_capture_ne_root cfg root req hcap hmem.symm

theorem runDiscovery_root_not_fetched (cfg : DiscoveryConfig) (net : Url → Option NetResponse)
    (hooks : FaultHooks) (snap : SnapshotInput) (cache0 : List (Url × CacheEntry)) (d : List Nat)
    (hdom : snap.domSnapshot = some d) :
    snap.url ∉ (runDiscovery cfg net hooks snap cache0).fetches := by
  unfold runDiscovery
  refine foldl_rec (fun st => snap.url ∉ st.fetches) (runWidth cfg net hooks snap) snap.widths
    { resources := [], cache := cache0, fetches := [], logs := [] } (by simp) ?_
  intro a w _ hP
  unfold runWidth
  rw [hdom]
  refine foldl_rec (fun st => snap.url ∉ st.fetches)
    (handleRequest cfg net hooks snap.url (some d)) (snap.pageRequests w)
    (handleRequest cfg net hooks snap.url (some d) a { url := snap.url, isPrefetch := false })
    ?_ ?_
  · exact handleRequest_root_not_fetched cfg net hooks snap.url d a
      { url := snap.url, isPrefetch := false } hP
  · intro a2 b _ hP2
    exact handleRequest_root_not_fetched cfg net hooks snap.url d a2 b hP2

/-- C9: with a DOM snapshot provided, the root resource is the serialized
DOM served as text/html under the snapshot URL, and no request for the
root URL is fetched from the origin. -/
theorem dom_snapshot_serves_root (cfg : DiscoveryConfig) (net : Url → Option NetResponse)
    (hooks : FaultHooks) (snap : SnapshotInput) (cache0 : List (Url × CacheEntry)) (d : List Nat)
    (hdom : snap.domSnapshot = some d) :
    snapshotResources cfg net hooks snap cache0 =
      some ({ url := snap.url, sha := shaOf d, mimetype := "text/html",
              content := d, isRoot := true }
        :: (runDiscovery cfg net hooks snap cache0).resources) ∧
    snap.url ∉ (runDiscovery cfg net hooks snap cache0).fetches := by
  constructor
  · unfold snapshotResources rootResource
    rw [hdom]
    rfl
  · exact runDiscovery_root_not_fetched cfg net hooks snap cache0 d hdom

/-- Witness for C9 at the concrete snapshot with a DOM snapshot. -/
theorem dom_snapshot_serves_root_witness :
    wSnap.domSnapshot = some wDom ∧
    (snapshotResources defaultDiscoveryConfig wNet noFaults wSnap [] =
      some ({ url := wSnap.url, sha := shaOf wDom, mimetype := "text/html",
              content := wDom, isRoot := true }
        :: (runDiscovery defaultDiscoveryConfig wNet noFaults wSnap []).resources) ∧
      wSnap.url ∉ (runDiscovery defaultDiscoveryConfig wNet noFaults wSnap []).fetches) :=
  ⟨rfl, dom_snapshot_serves_root defaultDiscoveryConfig wNet noFaults wSnap [] wDom rfl⟩

theorem handleRequest_dedup_inv (cfg : DiscoveryConfig) (net : Url → Option NetResponse)
    (hooks : FaultHooks) (root : Url) (dom : Option (List Nat))
    (s : DiscoveryState) (req : Request)
    (h1 : (s.resources.map Resource.sha).Nodup)
    (h2 : ∀ r ∈ s.resources, r.isRoot = false) :
    ((handleRequest cfg net hooks root dom s req).resources.map Resource.sha).Nodup ∧
    (∀ r ∈ (handleRequest cfg net hooks root dom s req).resources, r.isRoot = false) := by
  rcases handleRequest_resources_shape cfg net hooks root dom s req with h | ⟨_, mt, body, h, _⟩
  · rw [h]
    exact ⟨h1, h2⟩
  · rw [h]
    refine ⟨addResList_nodup_sha s.resources req.url mt body h1, ?_⟩
    intro r hr
    rcases addResList_mem s.resources req.url mt body r hr with hin | heq
    · exact h2 r hin
    · subst heq
      rfl

theorem runDiscovery_dedup_inv (cfg : DiscoveryConfig) (net : Url → Option NetResponse)
    (hooks : FaultHooks) (snap : SnapshotInput) (cache0 : List (Url × CacheEntry)) :
    (((runDiscovery cfg net hooks snap cache0).resources.map Resource.sha).Nodup) ∧
    (∀ r ∈ (runDiscovery cfg net hooks snap cache0).resources, r.isRoot = false) := by
  unfold runDiscovery
  refine foldl_rec
    (fun st => ((st.resources.map Resource.sha).Nodup) ∧ (∀ r ∈ st.resources, r.isRoot = false))
    (runWidth cfg net hooks snap) snap.widths
    { resources := [], cache := cache0, fetches := [], logs := [] } ⟨by simp, by simp⟩ ?_
  intro a w _ hP
  unfold runWidth
  refine foldl_rec
    (fun st => ((st.resources.map Resource.sha).Nodup) ∧ (∀ r ∈ st.resources, r.isRoot = false))
    (handleRequest cfg net hooks snap.url snap.domSnapshot) (snap.pageRequests w)
    (handleRequest cfg net hooks snap.url snap.domSnapshot a { url := snap.url, isPrefetch := false })
    ?_ ?_
  · exact handleRequest_dedup_inv cfg net hooks snap.url snap.domSnapshot a
      { url := snap.url, isPrefetch := false } hP.1 hP.2
  · intro a2 b _ hP2
    exact handleRequest_dedup_inv cfg net hooks snap.url snap.domSnapshot a2 b hP2.1 hP2.2

/-- C1: after all widths the discoverer emits the deduplicated resource
list with the unique root resource first, followed by the non-root
resources in insertion order with pairwise distinct shas. -/
theorem discoverer_emits_root_first_insertion_order (cfg : DiscoveryConfig)
    (net : Url → Option NetResponse) (hooks : FaultHooks) (snap : SnapshotInput)
    (cache0 : List (Url × CacheEntry)) (d : List Nat)
    (hdom : snap.domSnapshot = some d) :
    ∃ root rest, snapshotResources cfg net hooks snap cache0 = some (root :: rest) ∧
      root.isRoot = true ∧ root.url = snap.url ∧ root.sha = shaOf d ∧
      rest = (runDiscovery cfg net hooks snap cache0).resources ∧
      (rest.map Resource.sha).Nodup ∧
      (∀ r ∈ rest, r.isRoot = false) := by
  refine ⟨{ url := snap.url, sha := shaOf d, mimetype := "text/html",
            content := d, isRoot := true },
    (runDiscovery cfg net hooks snap cache0).resources, ?_, rfl, rfl, rfl, rfl, ?_, ?_⟩
  · unfold snapshotResources rootResource
    rw [hdom]
    rfl
  · exact (runDiscovery_dedup_inv cfg net hooks snap cache0).1
  · exact (runDiscovery_dedup_inv cfg net hooks snap cache0).2

/-- Witness for C1 at the concrete snapshot. -/
theorem discoverer_emits_root_first_insertion_order_witness :
    wSnap.domSnapshot = some wDom ∧
    ∃ root rest, snapshotResources defaultDiscoveryConfig wNet noFaults wSnap [] = some (root :: rest) ∧
      root.isRoot = true ∧ root.url = wSnap.url ∧ root.sha = shaOf wDom ∧
      rest = (runDiscovery defaultDiscoveryConfig wNet noFaults wSnap []).resources ∧
      (rest.map Resource.sha).Nodup ∧
      (∀ r ∈ rest, r.isRoot = false) :=
  ⟨rfl, discoverer_emits_root_first_insertion_order defaultDiscoveryConfig wNet noFaults wSnap [] wDom rfl⟩

theorem handleRequest_same_host_inv (cfg : DiscoveryConfig) (net : Url → Option NetResponse)
    (hooks : FaultHooks) (root : Url) (d : List Nat)
    (s : DiscoveryState) (req : Request)
    (hallow : cfg.allowedHostnames = [])
    (h1 : ∀ u ∈ s.fetches, u.host = root.host)
    (h2 : ∀ r ∈ s.resources, r.url.host = root.host) :
    (∀ u ∈ (handleRequest cfg net hooks root (some d) s req).fetches, u.host = root.host) ∧
    (∀ r ∈ (handleRequest cfg net hooks root (some d) s req).resources, r.url.host = root.host) := by
  constructor
  · rcases handleRequest_fetches_shape cfg net hooks root (some d) s req with h | ⟨hcap, h⟩
    · rw [h]
      exact h1
    · rcases hcap with hnone | hcap
      · exact absurd hnone (by simp)
      · rw [h]
        intro u hu
        rcases List.mem_append.mp hu with hu | hu
        · exact h1 u hu
        · simp only [List.mem_singleton] at hu
          subst hu
          exact routeRequest_capture_empty_allowed cfg root req hallow hcap
  · rcases handleRequest_resources_shape cfg net hooks root (some d) s req with h | ⟨hcap, mt, body, h, _⟩
    · rw [h]
      exact h2
    · rw [h]
      intro r hr
      rcases addResList_mem s.resources req.url mt body r hr with hin | heq
      · exact h2 r hin
      · subst heq
        exact routeRequest_capture_empty_allowed cfg root req hallow hcap

theorem runDiscovery_same_host (cfg : DiscoveryConfig) (net : Url → Option NetResponse)
    (hooks : FaultHooks) (snap : SnapshotInput) (cache0 : List (Url × CacheEntry)) (d : List Nat)
    (hallow : cfg.allowedHostnames = [])
    (hdom : snap.domSnapshot = some d) :
    (∀ u ∈ (runDiscovery cfg net hooks snap cache0).fetches, u.host = snap.url.host) ∧
    (∀ r ∈ (runDiscovery cfg net hooks snap cache0).resources, r.url.host = snap.url.host) := by
  unfold runDiscovery
  refine foldl_rec
    (fun st => (∀ u ∈ st.fetches, u.host = snap.url.host) ∧
      (∀ r ∈ st.resources, r.url.host = snap.url.host))
    (runWidth cfg net hooks snap) snap.widths
    { resources := [], cache := cache0, fetches := [], logs := [] } ⟨by simp, by simp⟩ ?_
  intro a w _ hP
  unfold runWidth
  rw [hdom]
  refine foldl_rec
    (fun st => (∀ u ∈ st.fetches, u.host = snap.url.host) ∧
      (∀ r ∈ st.resources, r.url.host = snap.url.host))
    (handleRequest cfg net hooks snap.url (some d)) (snap.pageRequests w)
    (handleRequest cfg net hooks snap.url (some d) a { url := snap.url, isPrefetch := false })
    ?_ ?_
  · exact handleRequest_same_host_inv cfg net hooks snap.url d a
      { url := snap.url, isPrefetch := false } hallow hP.1 hP.2
  · intro a2 b _ hP2
    exact handleRequest_same_host_inv cfg net hooks snap.url d a2 b hallow hP2.1 hP2.2

/-- C4: an external-host request is captured exactly when the hostname
matches an allowedHostnames pattern, a bare star pattern matches every
hostname, and under an empty allowedHostnames list every fetch and every
captured resource stays on the snapshot hostname. -/
theorem allowed_hostnames_routing :
    (∀ h : String, hostnameMatches "*" h = true) ∧
    (∀ (cfg : DiscoveryConfig) (root : Url) (req : Request),
      nonNetworkScheme req.url.scheme = false →
      matchesAnyHost cfg.disallowedHostnames req.url.host = false →
      req.isPrefetch = false → req.url ≠ root → req.url.host ≠ root.host →
      (routeRequest cfg root req = .capture ↔
        matchesAnyHost cfg.allowedHostnames req.url.host = true)) ∧
    (∀ (cfg : DiscoveryConfig) (net : Url → Option NetResponse) (hooks : FaultHooks)
      (snap : SnapshotInput) (cache0 : List (Url × CacheEntry)) (d : List Nat),
      cfg.allowedHostnames = [] → snap.domSnapshot = some d →
      (∀ u ∈ (runDiscovery cfg net hooks snap cache0).fetches, u.host = snap.url.host) ∧
      (∀ rs, snapshotResources cfg net hooks snap cache0 = some rs →
        ∀ r ∈ rs, r.url.host = snap.url.host)) := by
  refine ⟨fun _ => rfl, ?_, ?_⟩
  · intro cfg root req hscheme hdis hpre hroot hhost
    exact routeRequest_external_iff cfg root req hscheme hdis hpre hroot hhost
  · intro cfg net hooks snap cache0 d hallow hdom
    refine ⟨(runDiscovery_same_host cfg net hooks snap cache0 d hallow hdom).1, ?_⟩
    intro rs hrs
    have hsr : snapshotResources cfg net hooks snap cache0 =
        some ({ url := snap.url, sha := shaOf d, mimetype := "text/html",
                content := d, isRoot := true }
          :: (runDiscovery cfg net hooks snap cache0).resources) := by
      unfold snapshotResources rootResource
      rw [hdom]
      rfl
    rw [hsr] at hrs
    injection hrs with hrs
    subst hrs
    intro r hr
    rcases List.mem_cons.mp hr with h | h
    · subst h
      rfl
    · exact (runDiscovery_same_host cfg net hooks snap cache0 d hallow hdom).2 r h

/-- Witness for C4 at the concrete external image request and the
concrete snapshot with default configuration. -/
theorem allowed_hostnames_routing_witness :
    hostnameMatches "*" "test.localtest.me" = true ∧
    (routeRequest defaultDiscoveryConfig wRoot { url := wExt, isPrefetch := false } = .capture ↔
      matchesAnyHost defaultDiscoveryConfig.allowedHostnames wExt.host = true) ∧
    (∀ u ∈ (runDiscovery defaultDiscoveryConfig wNet noFaults wSnapExt []).fetches,
      u.host = wSnapExt.url.host) :=
  ⟨allowed_hostnames_routing.1 "test.localtest.me",
   allowed_hostnames_routing.2.1 defaultDiscoveryConfig wRoot { url := wExt, isPrefetch := false }
     (by decide) rfl rfl (by decide) (by decide),
   (allowed_hostnames_routing.2.2 defaultDiscoveryConfig wNet noFaults wSnapExt [] wDom rfl rfl).1⟩

theorem captureStep_noncapture (cfg : DiscoveryConfig) (net : Url → Option NetResponse)
    (root : Url) (rs : List Resource) (req : Request)
    (h : routeRequest cfg root req ≠ .capture) :
    captureStep cfg net root rs req = rs := by
  unfold captureStep
  cases hr : routeRequest cfg root req with
  | capture => exact absurd hr h
  | abort => rfl
  | continueNoCapture => rfl
  | serveRoot => rfl

theorem captureStep_capture (cfg : DiscoveryConfig) (net : Url → Option NetResponse)
    (root : Url) (rs : List Resource) (req : Request) (mt : String) (body : List Nat)
    (hroute : routeRequest cfg root req = .capture)
    (hf : fetchFollow net redirectFuel req.url = some (mt, body))
    (hsize : body.length ≤ maxFileSize) :
    captureStep cfg net root rs req = addResList rs req.url mt body := by
  unfold captureStep
  rw [hroute]
  simp only [hf]
  rw [if_neg (not_lt.mpr hsize)]

theorem handleRequest_noncapture (cfg : DiscoveryConfig) (net : Url → Option NetResponse)
    (hooks : FaultHooks) (root : Url) (d : List Nat) (s : DiscoveryState) (req : Request)
    (hroute : routeRequest cfg root req ≠ .capture) :
    ∃ lg, handleRequest cfg net hooks root (some d) s req = { s with logs := s.logs ++ lg } := by
  unfold handleRequest processRequestE
  cases hr : routeRequest cfg root req with
  | capture => exact absurd hr hroute
  | abort => exact ⟨[], by simp⟩
  | continueNoCapture => exact ⟨[], by simp⟩
  | serveRoot => exact ⟨[(LogLevel.debug, "Serving root resource for " ++ urlStr root)], rfl⟩

theorem handleRequest_capture_cases (cfg : DiscoveryConfig) (net : Url → Option NetResponse)
    (root : Url) (d : List Nat) (s : DiscoveryState) (req : Request)
    (hdc : cfg.disableAssetCache = false)
    (hroute : routeRequest cfg root req = .capture) :
    (∃ e, cacheLookup s.cache req.url = some e ∧
      handleRequest cfg net noFaults root (some d) s req =
        stateAddResource
          { s with logs := s.logs ++ [(LogLevel.debug, "Response cache hit for " ++ urlStr req.url)] }
          req.url e.mimetype e.content) ∨
    (cacheLookup s.cache req.url = none ∧
      ((fetchFollow net redirectFuel req.url = none ∧
        handleRequest cfg net noFaults root (some d) s req =
          { s with logs := s.logs ++ [(LogLevel.debug, "Request failed for " ++ urlStr req.url)] }) ∨
       (∃ mt body, fetchFollow net redirectFuel req.url = some (mt, body) ∧
         ((body.length > maxFileSize ∧
           handleRequest cfg net noFaults root (some d) s req =
             { s with fetches := s.fetches ++ [req.url],
                      logs := s.logs ++ [(LogLevel.debug, "Skipping - Max file size exceeded")] }) ∨
          (body.length ≤ maxFileSize ∧
           handleRequest cfg net noFaults root (some d) s req =
             stateAddResource
               { s with fetches := s.fetches ++ [req.url],
                        cache := s.cache ++ [(req.url, { sha := shaOf body, mimetype := mt, content := body })] }
               req.url mt body))))) := by
  unfold handleRequest processRequestE
  rw [hroute]
  simp only [noFaults, hdc, Bool.false_eq_true, if_false]
  cases hc : cacheLookup s.cache req.url with
  | some e => exact Or.inl ⟨e, rfl, rfl⟩
  | none =>
    refine Or.inr ⟨rfl, ?_⟩
    cases hf : fetchFollow net redirectFuel req.url with
    | none => exact Or.inl ⟨rfl, rfl⟩
    | some p =>
      obtain ⟨mt, body⟩ := p
      by_cases hsize : body.length > maxFileSize
      · simp only [if_pos hsize]
        exact Or.inr ⟨mt, body, rfl, Or.inl ⟨hsize, trivial⟩⟩
      · simp only [if_neg hsize]
        push_neg at hsize
        exact Or.inr ⟨mt, body, rfl, Or.inr ⟨hsize, rfl⟩⟩

theorem step_run1 (cfg : DiscoveryConfig) (net : Url → Option NetResponse)
    (root : Url) (d : List Nat) (s : DiscoveryState) (req : Request)
    (hdc : cfg.disableAssetCache = false)
    (hgood : routeRequest cfg root req = .capture → goodFetch net req.url = true)
    (hinv : RunInv net s) :
    RunInv net (handleRequest cfg net noFaults root (some d) s req) ∧
    (handleRequest cfg net noFaults root (some d) s req).resources =
      captureStep cfg net root s.resources req ∧
    (∃ ext, (handleRequest cfg net noFaults root (some d) s req).cache = s.cache ++ ext) ∧
    (routeRequest cfg root req = .capture →
      cacheLookup (handleRequest cfg net noFaults root (some d) s req).cache req.url ≠ none) := by
  obtain ⟨hA, hN, hFC, hCF, hRF⟩ := hinv
  by_cases hroute : routeRequest cfg root req = .capture
  · obtain ⟨mt0, body0, hf0, hsize0⟩ := goodFetch_spec net req.url (hgood hroute)
    rcases handleRequest_capture_cases cfg net root d s req hdc hroute with
      ⟨e, he, heq⟩ | ⟨hmiss, ⟨hfnone, _⟩ | ⟨mt, body, hf, ⟨hbig, _⟩ | ⟨hok, heq⟩⟩⟩
    · obtain ⟨hAe1, hAe2⟩ := hA (req.url, e) (cacheLookup_mem s.cache req.url e he)
      have hurlmem : req.url ∈ s.fetches := hCF (req.url, e) (cacheLookup_mem s.cache req.url e he)
      rw [heq]
      refine ⟨⟨hA, hN, hFC, hCF, ?_⟩, ?_, ⟨[], by simp [stateAddResource]⟩, ?_⟩
      · intro r hr
        rcases addResList_mem s.resources req.url e.mimetype e.content r hr with hin | hne
        · exact hRF r hin
        · subst hne
          exact hurlmem
      · exact (captureStep_capture cfg net root s.resources req e.mimetype e.content
          hroute hAe1 hAe2).symm
      · intro _
        show cacheLookup s.cache req.url ≠ none
        rw [he]
        simp
    · rw [hf0] at hfnone
      simp at hfnone
    · rw [hf] at hf0
      simp only [Option.some.injEq, Prod.mk.injEq] at hf0
      obtain ⟨h1, h2⟩ := hf0
      subst h2
      exact absurd hbig (not_lt.mpr hsize0)
    · have hnotin : req.url ∉ s.fetches := fun hmem => hFC req.url hmem hmiss
      rw [heq]
      refine ⟨⟨?_, ?_, ?_, ?_, ?_⟩, ?_, ?_, ?_⟩
      · intro p hp
        rcases List.mem_append.mp hp with hp | hp
        · exact hA p hp
        · simp only [List.mem_singleton] at hp
          subst hp
          exact ⟨hf, hok⟩
      · refine List.nodup_append.mpr ⟨hN, List.nodup_singleton _, ?_⟩
        intro a ha hb
        simp only [List.mem_singleton] at hb
        subst hb
        exact hnotin ha
      · intro u hu
        rcases List.mem_append.mp hu with hu | hu
        · have hune := hFC u hu
          show cacheLookup (s.cache ++ [(req.url, { sha := shaOf body, mimetype := mt, content := body })]) u ≠ none
          rw [cacheLookup_append_left s.cache _ u hune]
          exact hune
        · simp only [List.mem_singleton] at hu
          subst hu
          show cacheLookup (s.cache ++ [(req.url, { sha := shaOf body, mimetype := mt, content := body })]) req.url ≠ none
          rw [cacheLookup_append_right s.cache _ req.url hmiss]
          simp [cacheLookup]
      · intro p hp
        rcases List.mem_append.mp hp with hp | hp
        · exact List.mem_append_left _ (hCF p hp)
        · simp only [List.mem_singleton] at hp
          subst hp
          exact List.mem_append_right _ (by simp)
      · intro r hr
        rcases addResList_mem s.resources req.url mt body r hr with hin | hne
        · exact List.mem_append_left _ (hRF r hin)
        · subst hne
          exact List.mem_append_right _ (by simp)
      · exact (captureStep_capture cfg net root s.resources req mt body hroute hf hok).symm
      · exact ⟨[(req.url, { sha := shaOf body, mimetype := mt, content := body })], rfl⟩
      · intro _
        show cacheLookup (s.cache ++ [(req.url, { sha := shaOf body, mimetype := mt, content := body })]) req.url ≠ none
        rw [cacheLookup_append_right s.cache _ req.url hmiss]
        simp [cacheLookup]
  · obtain ⟨lg, hlg⟩ := handleRequest_noncapture cfg net noFaults root d s req hroute
    rw [hlg]
    exact ⟨⟨hA, hN, hFC, hCF, hRF⟩,
      (captureStep_noncapture cfg net root s.resources req hroute).symm,
      ⟨[], by simp⟩, fun hcap => absurd hcap hroute⟩

theorem fold_run1 (cfg : DiscoveryConfig) (net : Url → Option NetResponse)
    (root : Url) (d : List Nat)
    (hdc : cfg.disableAssetCache = false) :
    ∀ (reqs : List Request) (s : DiscoveryState),
      (∀ r ∈ reqs, routeRequest cfg root r = .capture → goodFetch net r.url = true) →
      RunInv net s →
      RunInv net (reqs.foldl (handleRequest cfg net noFaults root (some d)) s) ∧
      (reqs.foldl (handleRequest cfg net noFaults root (some d)) s).resources =
        reqs.foldl (captureStep cfg net root) s.resources ∧
      (∃ ext, (reqs.foldl (handleRequest cfg net noFaults root (some d)) s).cache = s.cache ++ ext) ∧
      (∀ r ∈ reqs, routeRequest cfg root r = .capture →
        cacheLookup (reqs.foldl (handleRequest cfg net noFaults root (some d)) s).cache r.url ≠ none) := by
  intro reqs
  induction reqs with
  | nil =>
    intro s _ hinv
    exact ⟨hinv, rfl, ⟨[], by simp⟩, by simp⟩
  | cons x xs ih =>
    intro s hgood hinv
    obtain ⟨hinv1, hres1, ⟨ext1, hc1⟩, hlook1⟩ :=
      step_run1 cfg net root d s x hdc (hgood x (List.mem_cons_self x xs)) hinv
    obtain ⟨hinv2, hres2, ⟨ext2, hc2⟩, hlook2⟩ :=
      ih (handleRequest cfg net noFaults root (some d) s x)
        (fun r hr => hgood r (List.mem_cons_of_mem x hr)) hinv1
    refine ⟨hinv2, ?_, ⟨ext1 ++ ext2, ?_⟩, ?_⟩
    · simp only [List.foldl_cons]
      rw [hres2, hres1]
    · simp only [List.foldl_cons]
      rw [hc2, hc1, List.append_assoc]
    · intro r hr hcap
      simp only [List.foldl_cons]
      rcases List.mem_cons.mp hr with hx | hxs
      · subst hx
        rw [hc2, cacheLookup_append_left _ ext2 r.url (hlook1 hcap)]
        exact hlook1 hcap
      · exact hlook2 r hxs hcap

theorem width_run1 (cfg : DiscoveryConfig) (net : Url → Option NetResponse)
    (snap : SnapshotInput) (d : List Nat) (w : Nat) (s : DiscoveryState)
    (hdc : cfg.disableAssetCache = false)
    (hdom : snap.domSnapshot = some d)
    (hgood : ∀ r ∈ snap.pageRequests w, routeRequest cfg snap.url r = .capture →
      goodFetch net r.url = true)
    (hinv : RunInv net s) :
    RunInv net (runWidth cfg net noFaults snap s w) ∧
    (runWidth cfg net noFaults snap s w).resources =
      (snap.pageRequests w).foldl (captureStep cfg net snap.url) s.resources ∧
    (∃ ext, (runWidth cfg net noFaults snap s w).cache = s.cache ++ ext) ∧
    (∀ r ∈ snap.pageRequests w, routeRequest cfg snap.url r = .capture →
      cacheLookup (runWidth cfg net noFaults snap s w).cache r.url ≠ none) := by
  unfold runWidth
  rw [hdom]
  obtain ⟨hinvr, hresr, ⟨extr, hcr⟩, _⟩ :=
    step_run1 cfg net snap.url d s { url := snap.url, isPrefetch := false } hdc
      (fun hcap => absurd hcap (routeRequest_root_ne_capture cfg snap.url)) hinv
  obtain ⟨hinv2, hres2, ⟨ext2, hc2⟩, hlook2⟩ :=
    fold_run1 cfg net snap.url d hdc (snap.pageRequests w)
      (handleRequest cfg net noFaults snap.url (some d) s { url := snap.url, isPrefetch := false })
      hgood hinvr
  refine ⟨hinv2, ?_, ⟨extr ++ ext2, ?_⟩, ?_⟩
  · rw [hres2, hresr,
      captureStep_noncapture cfg net snap.url s.resources _ (routeRequest_root_ne_capture cfg snap.url)]
  · rw [hc2, hcr, List.append_assoc]
  · intro r hr hcap
    exact hlook2 r hr hcap

theorem widths_run1 (cfg : DiscoveryConfig) (net : Url → Option NetResponse)
    (snap : SnapshotInput) (d : List Nat)
    (hdc : cfg.disableAssetCache = false)
    (hdom : snap.domSnapshot = some d) :
    ∀ (ws : List Nat) (s : DiscoveryState),
      (∀ w ∈ ws, ∀ r ∈ snap.pageRequests w, routeRequest cfg snap.url r = .capture →
        goodFetch net r.url = true) →
      RunInv net s →
      RunInv net (ws.foldl (runWidth cfg net noFaults snap) s) ∧
      (ws.foldl (runWidth cfg net noFaults snap) s).resources =
        ws.foldl (fun rs w => (snap.pageRequests w).foldl (captureStep cfg net snap.url) rs) s.resources ∧
      (∃ ext, (ws.foldl (runWidth cfg net noFaults snap) s).cache = s.cache ++ ext) ∧
      (∀ w ∈ ws, ∀ r ∈ snap.pageRequests w, routeRequest cfg snap.url r = .capture →
        cacheLookup (ws.foldl (runWidth cfg net noFaults snap) s).cache r.url ≠ none) := by
  intro ws
  induction ws with
  | nil =>
    intro s _ hinv
    exact ⟨hinv, rfl, ⟨[], by simp⟩, by simp⟩
  | cons w ws ih =>
    intro s hgood hinv
    obtain ⟨hinv1, hres1, ⟨ext1, hc1⟩, hlook1⟩ :=
      width_run1 cfg net snap d w s hdc hdom (hgood w (List.mem_cons_self w ws)) hinv
    obtain ⟨hinv2, hres2, ⟨ext2, hc2⟩, hlook2⟩ :=
      ih (runWidth cfg net noFaults snap s w)
        (fun w2 hw2 => hgood w2 (List.mem_cons_of_mem w hw2)) hinv1
    refine ⟨hinv2, ?_, ⟨ext1 ++ ext2, ?_⟩, ?_⟩
    · simp only [List.foldl_cons]
      rw [hres2, hres1]
    · simp only [List.foldl_cons]
      rw [hc2, hc1, List.append_assoc]
    · intro w2 hw2 r hr hcap
      simp only [List.foldl_cons]
      rcases List.mem_cons.mp hw2 with hx | hxs
      · subst hx
        rw [hc2, cacheLookup_append_left _ ext2 r.url (hlook1 r hr hcap)]
        exact hlook1 r hr hcap
      · exact hlook2 w2 hxs r hr hcap

theorem step_run2 (cfg : DiscoveryConfig) (net : Url → Option NetResponse)
    (root : Url) (d : List Nat) (s : DiscoveryState) (req : Request)
    (hdc : cfg.disableAssetCache = false)
    (hA : cacheAgrees net s.cache)
    (hcov : routeRequest cfg root req = .capture → cacheLookup s.cache req.url ≠ none) :
    (handleRequest cfg net noFaults root (some d) s req).resources =
      captureStep cfg net root s.resources req ∧
    (handleRequest cfg net noFaults root (some d) s req).cache = s.cache ∧
    (handleRequest cfg net noFaults root (some d) s req).fetches = s.fetches := by
  by_cases hroute : routeRequest cfg root req = .capture
  · rcases handleRequest_capture_cases cfg net root d s req hdc hroute with
      ⟨e, he, heq⟩ | ⟨hmiss, _⟩
    · obtain ⟨hAe1, hAe2⟩ := hA (req.url, e) (cacheLookup_mem s.cache req.url e he)
      rw [heq]
      exact ⟨(captureStep_capture cfg net root s.resources req e.mimetype e.content
        hroute hAe1 hAe2).symm, rfl, rfl⟩
    · exact absurd hmiss (hcov hroute)
  · obtain ⟨lg, hlg⟩ := handleRequest_noncapture cfg net noFaults root d s req hroute
    rw [hlg]
    exact ⟨(captureStep_noncapture cfg net root s.resources req hroute).symm, rfl, rfl⟩

theorem fold_run2 (cfg : DiscoveryConfig) (net : Url → Option NetResponse)
    (root : Url) (d : List Nat)
    (hdc : cfg.disableAssetCache = false) :
    ∀ (reqs : List Request) (s : DiscoveryState),
      cacheAgrees net s.cache →
      (∀ r ∈ reqs, routeRequest cfg root r = .capture → cacheLookup s.cache r.url ≠ none) →
      (reqs.foldl (handleRequest cfg net noFaults root (some d)) s).resources =
        reqs.foldl (captureStep cfg net root) s.resources ∧
      (reqs.foldl (handleRequest cfg net noFaults root (some d)) s).cache = s.cache ∧
      (reqs.foldl (handleRequest cfg net noFaults root (some d)) s).fetches = s.fetches := by
  intro reqs
  induction reqs with
  | nil =>
    intro s _ _
    exact ⟨rfl, rfl, rfl⟩
  | cons x xs ih =>
    intro s hA hcov
    obtain ⟨h1, h2, h3⟩ := step_run2 cfg net root d s x hdc hA (hcov x (List.mem_cons_self x xs))
    obtain ⟨g1, g2, g3⟩ := ih (handleRequest cfg net noFaults root (some d) s x)
      (by rw [h2]; exact hA)
      (fun r hr hcap => by rw [h2]; exact hcov r (List.mem_cons_of_mem x hr) hcap)
    refine ⟨?_, ?_, ?_⟩ <;> simp only [List.foldl_cons]
    · rw [g1, h1]
    · rw [g2, h2]
    · rw [g3, h3]

theorem width_run2 (cfg : DiscoveryConfig) (net : Url → Option NetResponse)
    (snap : SnapshotInput) (d : List Nat) (w : Nat) (s : DiscoveryState)
    (hdc : cfg.disableAssetCache = false)
    (hdom : snap.domSnapshot = some d)
    (hA : cacheAgrees net s.cache)
    (hcov : ∀ r ∈ snap.pageRequests w, routeRequest cfg snap.url r = .capture →
      cacheLookup s.cache r.url ≠ none) :
    (runWidth cfg net noFaults snap s w).resources =
      (snap.pageRequests w).foldl (captureStep cfg net snap.url) s.resources ∧
    (runWidth cfg net noFaults snap s w).cache = s.cache ∧
    (runWidth cfg net noFaults snap s w).fetches = s.fetches := by
  unfold runWidth
  rw [hdom]
  obtain ⟨h1, h2, h3⟩ := step_run2 cfg net snap.url d s { url := snap.url, isPrefetch := false } hdc hA
    (fun hcap => absurd hcap (routeRequest_root_ne_capture cfg snap.url))
  obtain ⟨g1, g2, g3⟩ := fold_run2 cfg net snap.url d hdc (snap.pageRequests w)
    (handleRequest cfg net noFaults snap.url (some d) s { url := snap.url, isPrefetch := false })
    (by rw [h2]; exact hA)
    (fun r hr hcap => by rw [h2]; exact hcov r hr hcap)
  refine ⟨?_, ?_, ?_⟩
  · rw [g1, h1,
      captureStep_noncapture cfg net snap.url s.resources _ (routeRequest_root_ne_capture cfg snap.url)]
  · rw [g2, h2]
  · rw [g3, h3]

theorem widths_run2 (cfg : DiscoveryConfig) (net : Url → Option NetResponse)
    (snap : SnapshotInput) (d : List Nat)
    (hdc : cfg.disableAssetCache = false)
    (hdom : snap.domSnapshot = some d) :
    ∀ (ws : List Nat) (s : DiscoveryState),
      cacheAgrees net s.cache →
      (∀ w ∈ ws, ∀ r ∈ snap.pageRequests w, routeRequest cfg snap.url r = .capture →
        cacheLookup s.cache r.url ≠ none) →
      (ws.foldl (runWidth cfg net noFaults snap) s).resources =
        ws.foldl (fun rs w => (snap.pageRequests w).foldl (captureStep cfg net snap.url) rs) s.resources ∧
      (ws.foldl (runWidth cfg net noFaults snap) s).cache = s.cache ∧
      (ws.foldl (runWidth cfg net noFaults snap) s).fetches = s.fetches := by
  intro ws
  induction ws with
  | nil =>
    intro s _ _
    exact ⟨rfl, rfl, rfl⟩
  | cons w ws ih =>
    intro s hA hcov
    obtain ⟨h1, h2, h3⟩ := width_run2 cfg net snap d w s hdc hdom hA (hcov w (List.mem_cons_self w ws))
    obtain ⟨g1, g2, g3⟩ := ih (runWidth cfg net noFaults snap s w)
      (by rw [h2]; exact hA)
      (fun w2 hw2 r hr hcap => by rw [h2]; exact hcov w2 (List.mem_cons_of_mem w hw2) r hr hcap)
    refine ⟨?_, ?_, ?_⟩ <;> simp only [List.foldl_cons]
    · rw [g1, h1]
    · rw [g2, h2]
    · rw [g3, h3]

/-- C3: with the response cache enabled, two runs of the same snapshot
perform exactly one outbound fetch per sub-resource across both runs -
the first run fetches pairwise-distinct URLs covering every captured
resource, the second run fetches nothing - and the resource lists of the
two snapshots are equal. -/
theorem response_cache_single_fetch (cfg : DiscoveryConfig) (net : Url → Option NetResponse)
    (snap : SnapshotInput) (d : List Nat)
    (hdc : cfg.disableAssetCache = false)
    (hdom : snap.domSnapshot = some d)
    (hgood : ∀ w ∈ snap.widths, ∀ r ∈ snap.pageRequests w, goodFetch net r.url = true) :
    (runDiscovery cfg net noFaults snap []).fetches.Nodup ∧
    (∀ r ∈ (runDiscovery cfg net noFaults snap []).resources,
      r.url ∈ (runDiscovery cfg net noFaults snap []).fetches) ∧
    (runDiscovery cfg net noFaults snap ((runDiscovery cfg net noFaults snap []).cache)).fetches = [] ∧
    (runDiscovery cfg net noFaults snap ((runDiscovery cfg net noFaults snap []).cache)).resources =
      (runDiscovery cfg net noFaults snap []).resources ∧
    snapshotResources cfg net noFaults snap ((runDiscovery cfg net noFaults snap []).cache) =
      snapshotResources cfg net noFaults snap [] := by
  have hinv0 : RunInv net { resources := [], cache := [], fetches := [], logs := [] } := by
    refine ⟨?_, ?_, ?_, ?_, ?_⟩ <;> simp [cacheAgrees]
  obtain ⟨hinv1, hres1, hext1, hlook1⟩ :=
    widths_run1 cfg net snap d hdc hdom snap.widths
      { resources := [], cache := [], fetches := [], logs := [] }
      (fun w hw r hr _ => hgood w hw r hr) hinv0
  obtain ⟨gres, gcache, gfet⟩ :=
    widths_run2 cfg net snap d hdc hdom snap.widths
      { resources := [],
        cache := (runDiscovery cfg net noFaults snap []).cache,
        fetches := [], logs := [] }
      hinv1.1 hlook1
  have hresEq : (runDiscovery cfg net noFaults snap
        ((runDiscovery cfg net noFaults snap []).cache)).resources =
      (runDiscovery cfg net noFaults snap []).resources := gres.trans hres1.symm
  refine ⟨hinv1.2.1, hinv1.2.2.2.2, gfet, hresEq, ?_⟩
  simp only [snapshotResources, hresEq]

/-- Witness for C3 at the concrete snapshot and network. -/
theorem response_cache_single_fetch_witness :
    (∀ w ∈ wSnap.widths, ∀ r ∈ wSnap.pageRequests w, goodFetch wNet r.url = true) ∧
    ((runDiscovery defaultDiscoveryConfig wNet noFaults wSnap []).fetches.Nodup ∧
     (∀ r ∈ (runDiscovery defaultDiscoveryConfig wNet noFaults wSnap []).resources,
       r.url ∈ (runDiscovery defaultDiscoveryConfig wNet noFaults wSnap []).fetches) ∧
     (runDiscovery defaultDiscoveryConfig wNet noFaults wSnap
       ((runDiscovery defaultDiscoveryConfig wNet noFaults wSnap []).cache)).fetches = [] ∧
     (runDiscovery defaultDiscoveryConfig wNet noFaults wSnap
       ((runDiscovery defaultDiscoveryConfig wNet noFaults wSnap []).cache)).resources =
       (runDiscovery defaultDiscoveryConfig wNet noFaults wSnap []).resources ∧
     snapshotResources defaultDiscoveryConfig wNet noFaults wSnap
       ((runDiscovery defaultDiscoveryConfig wNet noFaults wSnap []).cache) =
       snapshotResources defaultDiscoveryConfig wNet noFaults wSnap []) :=
  ⟨by decide,
   response_cache_single_fetch defaultDiscoveryConfig wNet wSnap wDom rfl rfl (by decide)⟩

end PercySpec
